import Mathlib

/-!
Verification development for the financial-statement analysis pipeline
(`HPE_GenAI_Project_LokeshSubmission.py`).

The Python source is shallowly embedded below.  External collaborators
(PyMuPDF page decoding, spacy NER, camelot table detection, the langchain
loader/embedding/LLM stack) are modelled as oracle inputs of type
`Except String _`: an `.error` value stands for the collaborator raising an
exception, an `.ok` value for its successful result.  Everything the
repository's own code does with those results — keyword filtering, the
period regular expression, pandas truthiness/indexing behaviour, the
control flow of `main`, temporary-file handling — is translated faithfully
from the source.
-/

/-- Python `str.lower()` restricted to the ASCII range actually exercised by
the source (`Char.toLower` lowercases exactly the characters `A`-`Z`). -/
def pyLower (s : String) : String :=
  (s.toList.map Char.toLower).asString

/-- Helper for `pyTitle`: walks the characters carrying the flag
"previous character was cased"; a cased (alphabetic) character following a
non-cased one is uppercased, any other cased character is lowercased,
non-cased characters pass through — Python `str.title()` semantics. -/
def pyTitleAux : Bool → List Char → List Char
  | _, [] => []
  | prevCased, c :: cs =>
    (if c.isAlpha then (if prevCased then c.toLower else c.toUpper) else c)
      :: pyTitleAux c.isAlpha cs

/-- Python `str.title()`. -/
def pyTitle (s : String) : String :=
  (pyTitleAux false s.toList).asString

/-- `listStartsWith pat cs` holds when `cs` begins with the segment `pat`. -/
def listStartsWith : List Char → List Char → Bool
  | [], _ => true
  | _ :: _, [] => false
  | p :: ps, c :: cs => p == c && listStartsWith ps cs

/-- `listContainsSeg pat cs`: Python's substring test `pat in cs`
(`pat` occurs contiguously somewhere in `cs`; the empty pattern always
occurs). -/
def listContainsSeg (pat cs : List Char) : Bool :=
  match cs with
  | [] => pat.isEmpty
  | _ :: rest => listStartsWith pat cs || listContainsSeg pat rest

/-- Source lines 70-71:
`return any(keyword.lower() in text.lower() for keyword in keywords)`. -/
def contains_keywords (text : String) (keywords : List String) : Bool :=
  keywords.any fun keyword =>
    listContainsSeg (pyLower keyword).toList (pyLower text).toList

/-- A camelot table grid (`table.df`): ordered rows of ordered string cells. -/
abbrev Grid : Type := List (List String)

/-- One table detected by `camelot.read_pdf` (source line 80): its page
number (`table.page`), the page text that `fitz` extracts when clipped to
the table's bounding box on that page (source lines 88-89), and its data
grid (`table.df`). -/
structure PdfTable where
  page : Nat
  clipText : String
  df : Grid
deriving DecidableEq

/-- File-system effects performed on the temporary file materialised from
the uploaded bytes. -/
inductive FsOp where
  | createTemp
  | writeTemp
  | deleteTemp
deriving DecidableEq, BEq

/-- Source lines 56-62 (`extract_text_from_pdf`): the pages of the opened
document, in order, concatenated by `text += page.get_text()` starting from
the empty string.  The argument is the ordered list of page texts of a
successfully opened document. -/
def extract_text_from_pdf (pages : List String) : String :=
  pages.foldl (fun text p => text ++ p) ""

/-- Source lines 73-103 (`extract_key_tables_from_pdf`).
`detection` is the outcome of `camelot.read_pdf` (line 80).
Returned triple: the file-system trace on the temporary file, the list of
kept data grids, and whether `st.error` was invoked.

* Lines 74-76: `tempfile.NamedTemporaryFile(delete=False)` creates the file
  and the uploaded bytes are written — trace `[createTemp, writeTemp]`.
  No code path ever removes the file (there is no `os.remove`/`unlink`),
  so `deleteTemp` never occurs.
* Line 78: the `if temp_file_path:` guard is always true (a fresh temporary
  file name is a non-empty string), so the `else` of line 101 is dead.
* Lines 82-92: each detected table's grid is appended exactly when
  `contains_keywords` accepts its bounding-box-clipped page text.
* Line 94: `doc` is bound only inside the loop body (line 88), so when
  `detection` yields zero tables `doc.close()` raises `UnboundLocalError`,
  which the handler of lines 97-99 catches: `st.error` fires and `[]` is
  returned.
* Lines 97-99: a detection failure likewise yields `st.error` and `[]`. -/
def extract_key_tables_from_pdf (detection : Except String (List PdfTable))
    (keywords : List String) : List FsOp × List Grid × Bool :=
  let trace := [FsOp.createTemp, FsOp.writeTemp]
  match detection with
  | Except.error _ => (trace, [], true)
  | Except.ok tables =>
    match tables with
    | [] => (trace, [], true)
    | _ :: _ =>
      (trace,
       (tables.filter fun table => contains_keywords table.clipText keywords).map
         (fun table => table.df),
       false)

/-- Source lines 41-54 (`load_pdf_and_create_index`).
`loaderChain` is the outcome of the langchain loader / splitter / index
pipeline of lines 46-52 (external collaborators).  The function's own
observable behaviour on the temporary file is lines 42-44: the file is
created with `delete=False` and written, and no path deletes it; the chain
result (or the exception it raises) is then passed through unchanged. -/
def load_pdf_and_create_index (loaderChain : Except String (List String)) :
    List FsOp × Except String (List String) :=
  ([FsOp.createTemp, FsOp.writeTemp], loaderChain)

/-- The tuple of the five capture groups of the period regular expression
(source line 106), as returned per match by `re.findall`: group 1 is the
whole first alternative, group 2 its `quarterly|fiscal` choice, group 3 its
date; group 4 is the whole second (double-space fiscal-year) alternative and
group 5 its date.  Groups that did not participate are the empty string. -/
structure RegexMatch where
  g1 : String
  g2 : String
  g3 : String
  g4 : String
  g5 : String
deriving DecidableEq

/-- Python regex `\w` over the text the source feeds it. -/
def isWordChar (c : Char) : Bool :=
  c.isAlphanum || c == '_'

/-- Python regex `\s` (ASCII whitespace). -/
def isSpaceChar (c : Char) : Bool :=
  c == ' ' || c == '\t' || c == '\n' || c == '\r' || c == '\x0b' || c == '\x0c'

/-- Consume the literal `pat` at the head of `cs`. -/
def matchLit (pat cs : List Char) : Option (List Char) :=
  if listStartsWith pat cs then some (cs.drop pat.length) else none

/-- The date sub-pattern `\w+\s\d{1,2},\s\d{4}` of source line 106, matched
at the head of `cs`; returns the matched characters and the remainder.
Greedy matching without backtracking is exact here because every pair of
adjacent sub-patterns draws from disjoint character classes (word characters
vs whitespace, digits vs comma), so a longer greedy take can never steal a
character the next sub-pattern needs. -/
def matchDate (cs : List Char) : Option (List Char × List Char) :=
  let w := cs.takeWhile isWordChar
  if w.isEmpty then none
  else
    match cs.drop w.length with
    | [] => none
    | c1 :: r1 =>
      if isSpaceChar c1 then
        let ds := r1.takeWhile Char.isDigit
        if ds.isEmpty ∨ 2 < ds.length then none
        else
          match r1.drop ds.length with
          | ',' :: c2 :: r2 =>
            if isSpaceChar c2 then
              let ys := r2.take 4
              if ys.length = 4 ∧ ys.all Char.isDigit = true then
                some (w ++ c1 :: (ds ++ ',' :: c2 :: ys), r2.drop 4)
              else none
            else none
          | _ => none
      else none

/-- The group-2 alternation `(quarterly|fiscal)`; the two words differ at
their first character, so trying them in order needs no backtracking. -/
def matchQuarterlyFiscal (cs : List Char) : Option (List Char × List Char) :=
  match matchLit "quarterly".toList cs with
  | some r => some ("quarterly".toList, r)
  | none =>
    match matchLit "fiscal".toList cs with
    | some r => some ("fiscal".toList, r)
    | none => none

/-- First alternative of the pattern:
`for the (quarterly|fiscal) period ended:\s*(\w+\s\d{1,2},\s\d{4})`. -/
def matchAlt1 (cs : List Char) : Option (RegexMatch × List Char) :=
  match matchLit "for the ".toList cs with
  | none => none
  | some r1 =>
    match matchQuarterlyFiscal r1 with
    | none => none
    | some (g2, r2) =>
      match matchLit " period ended:".toList r2 with
      | none => none
      | some r3 =>
        let sp := r3.takeWhile isSpaceChar
        match matchDate (r3.drop sp.length) with
        | none => none
        | some (date, rest) =>
          some (⟨("for the ".toList ++ g2 ++ " period ended:".toList
                    ++ sp ++ date).asString,
                 g2.asString, date.asString, "", ""⟩, rest)

/-- Second alternative of the pattern, with its literal double space:
`for the  fiscal year ended:\s*(\w+\s\d{1,2},\s\d{4})`. -/
def matchAlt2 (cs : List Char) : Option (RegexMatch × List Char) :=
  match matchLit "for the  fiscal year ended:".toList cs with
  | none => none
  | some r1 =>
    let sp := r1.takeWhile isSpaceChar
    match matchDate (r1.drop sp.length) with
    | none => none
    | some (date, rest) =>
      some (⟨"", "", "",
             ("for the  fiscal year ended:".toList ++ sp ++ date).asString,
             date.asString⟩, rest)

/-- `re.findall` driver: scan positions left to right, at each position try
alternative 1 then alternative 2 (the order of the alternation), emit the
match and continue after its end (matches are non-overlapping), otherwise
advance one character.  Fuel is the length of the text; every step consumes
at least one character, so the fuel never runs out. -/
def findallAux : Nat → List Char → List RegexMatch
  | 0, _ => []
  | _, [] => []
  | fuel + 1, c :: cs =>
    match matchAlt1 (c :: cs) with
    | some (m, rest) => m :: findallAux fuel rest
    | none =>
      match matchAlt2 (c :: cs) with
      | some (m, rest) => m :: findallAux fuel rest
      | none => findallAux fuel cs

/-- `re.findall(date_pattern, text)` for the pattern of source line 106. -/
def findall (cs : List Char) : List RegexMatch :=
  findallAux cs.length cs

/-- Source lines 105-112 (`extract_specific_dates`).
`re.findall` runs on the lowercased text.  `pd.DataFrame(matches)` built
from an empty match list has no columns, so the column access
`df_period[0]` raises `KeyError: 0`; with at least one match, column `0`
holds group 1 of each match and `df_period[0][0].title()` is the
title-cased group 1 of the first match. -/
def extract_specific_dates (text : String) : Except String String :=
  match findall (pyLower text).toList with
  | [] => Except.error "KeyError: 0"
  | m :: _ => Except.ok (pyTitle m.g1)

/-- Does `cs` start with `i`, `n`, `c` followed by one more character that a
regex `.` can match (any character except a newline)?  This is the pattern
`inc.` of source line 147 anchored at the current position. -/
def incHere : List Char → Bool
  | a :: b :: c :: d :: _ => a == 'i' && b == 'n' && c == 'c' && d != '\n'
  | _ => false

/-- `re.search` of the pattern `inc.` over `cs`: some position matches
`incHere`.  pandas `Series.str.contains` uses regex search, so the dot of
the marker `inc.` is a wildcard, not a literal full stop. -/
def hasIncAny (cs : List Char) : Bool :=
  match cs with
  | [] => false
  | _ :: rest => incHere cs || hasIncAny rest

/-- Source line 147: the pandas filter
`str.contains("company|inc.|ltd|enterprise|corporation")` applied to an
already-lowercased entity string — a regex alternation, where each branch
except `inc.` is effectively a literal substring test. -/
def companyMarkerMatch (s : String) : Bool :=
  listContainsSeg "company".toList s.toList || hasIncAny s.toList ||
  listContainsSeg "ltd".toList s.toList ||
  listContainsSeg "enterprise".toList s.toList ||
  listContainsSeg "corporation".toList s.toList

/-- Source lines 146-147: the rows of the `company_names` DataFrame whose
lowercased text satisfies the marker filter, in original order. -/
def keptCompanies (names : List String) : List String :=
  names.filter fun n => companyMarkerMatch (pyLower n)

/-- Source line 148:
`filtered_df.iloc[0]["Company Name"] if not filtered_df.empty else "Unknown"`. -/
def first_company (names : List String) : String :=
  match keptCompanies names with
  | [] => "Unknown"
  | c :: _ => c

/-- Modelled from the spec: the Entity Filter post-filter as section 4.2
words it — "keep only entities whose lowercase form contains one of a fixed
lexical marker set {company, inc., ltd, enterprise, corporation}", i.e.
every marker including `inc.` is a literal substring.  Kept for comparison
with the source-derived `companyMarkerMatch`. -/
def specLiteralMarker (s : String) : Bool :=
  listContainsSeg "company".toList s.toList ||
  listContainsSeg "inc.".toList s.toList ||
  listContainsSeg "ltd".toList s.toList ||
  listContainsSeg "enterprise".toList s.toList ||
  listContainsSeg "corporation".toList s.toList

/-- Source line 168: the fixed label list. -/
def table_labels : List String :=
  ["Consolidated Statements of Earnings", "Consolidated Balance Sheets",
   "Consolidated Statements of Cash Flows"]

/-- Source line 171:
`table_labels[i] if i < len(table_labels) else f"Table {i+1}"`. -/
def labelFor (i : Nat) : String :=
  if i < table_labels.length then table_labels.getD i ""
  else "Table " ++ toString (i + 1)

/-- The loop body of source lines 170-173, carrying the running index of
`enumerate`. -/
def renderTablesAux (i : Nat) : List Grid → List (String × Grid)
  | [] => []
  | df :: rest => (labelFor i, df) :: renderTablesAux (i + 1) rest

/-- Source lines 169-173: `for i, df in enumerate(dataframes[:3])` — the
slice keeps only the first three grids before labels are assigned.  (When
`dataframes` is empty the loop renders nothing and line 175 prints a
message instead; the rendered list is empty either way.) -/
def renderTables (dataframes : List Grid) : List (String × Grid) :=
  renderTablesAux 0 (dataframes.take 3)

/-- Source lines 162-163: the keyword set used by `main`. -/
def main_keywords : List String :=
  ["Earnings before provision for taxes", "total current assets",
   "total current liabilities", "net cash provided by operating activities",
   "net cash used in investing activities"]

/-- Source lines 155-158: `if doc_period:` — Python string truthiness, so
the empty string takes the fallback branch. -/
def mainPeriodLine (doc_period : String) : String :=
  if doc_period = "" then "No specific dates found in the document."
  else " - " ++ doc_period

/-- Source lines 145-151: the company sub-section of `main`, given the
entity list that `extract_company_name` returned; line 149 displays
`first_company.title()`. -/
def mainCompanyLine (company_names : List String) : String :=
  if company_names.isEmpty then "No company names found in the document."
  else " - " ++ pyTitle (first_company company_names)

/-- The external collaborators `main` drives, as oracles:
`text` is `fitz` opening/decoding the upload (lines 56-62 via 137),
`entities` is the spacy run of `extract_company_name` (lines 64-68 via 144),
`tablesDetection` is camelot (line 80 via 165), and `qa` is the whole
langchain/OpenAI question-answering stack (lines 179-196). -/
structure MainOracle where
  text : Except String String
  entities : Except String (List String)
  tablesDetection : Except String (List PdfTable)
  qa : Except String String

/-- What a run of `main` (source lines 132-201) rendered: each section's
output is `some _` exactly when control reached it, `qaRan` records whether
the QA section completed, and the two error slots mirror the `st.error`
calls of the outer handler (line 201) and the QA handler (line 198). -/
structure MainResult where
  companyLine : Option String
  periodLine : Option String
  tables : Option (List (String × Grid))
  qaRan : Bool
  outerError : Option String
  qaError : Option String

/-- Source lines 132-201, the body of `main` after upload.  One `try`
(lines 133-199) wraps text extraction, the metadata section and the table
section; only the QA section has its own inner `try` (lines 177-198).  An
exception anywhere in the outer region therefore jumps straight to the
handler of line 200, skipping every later section. -/
def mainRun (o : MainOracle) : MainResult :=
  match o.text with
  | Except.error e => ⟨none, none, none, false, some e, none⟩
  | Except.ok text =>
    match o.entities with
    | Except.error e => ⟨none, none, none, false, some e, none⟩
    | Except.ok ents =>
      let companyLine := mainCompanyLine ents
      match extract_specific_dates text with
      | Except.error e => ⟨some companyLine, none, none, false, some e, none⟩
      | Except.ok doc_period =>
        let periodLine := mainPeriodLine doc_period
        let grids := (extract_key_tables_from_pdf o.tablesDetection main_keywords).2.1
        let tablesOut := renderTables grids
        match o.qa with
        | Except.error e =>
          ⟨some companyLine, some periodLine, some tablesOut, false, none, some e⟩
        | Except.ok _ =>
          ⟨some companyLine, some periodLine, some tablesOut, true, none, none⟩

/-! ## Helper lemmas -/

theorem listStartsWith_iff (p : List Char) : ∀ cs : List Char,
    listStartsWith p cs = true ↔ ∃ t, cs = p ++ t := by
  induction p with
  | nil =>
    intro cs
    simp [listStartsWith]
  | cons a ps ih =>
    intro cs
    cases cs with
    | nil =>
      simp [listStartsWith]
    | cons c cs' =>
      simp only [listStartsWith, Bool.and_eq_true, beq_iff_eq, ih,
        List.cons_append, List.cons.injEq]
      constructor
      · rintro ⟨hac, t, ht⟩
        exact ⟨t, hac.symm, ht⟩
      · rintro ⟨t, hca, ht⟩
        exact ⟨hca.symm, t, ht⟩

theorem listContainsSeg_iff (p : List Char) : ∀ cs : List Char,
    listContainsSeg p cs = true ↔ ∃ s t, cs = s ++ p ++ t := by
  intro cs
  induction cs with
  | nil =>
    cases p with
    | nil => simp [listContainsSeg]
    | cons a ps =>
      simp only [listContainsSeg, List.isEmpty_cons]
      constructor
      · intro h
        cases h
      · rintro ⟨s, t, ht⟩
        exact absurd ht.symm (by simp)
  | cons c rest ih =>
    simp only [listContainsSeg, Bool.or_eq_true, listStartsWith_iff, ih]
    constructor
    · rintro (⟨t, ht⟩ | ⟨s, t, ht⟩)
      · exact ⟨[], t, by simpa using ht⟩
      · exact ⟨c :: s, t, by simp [ht]⟩
    · rintro ⟨s, t, ht⟩
      cases s with
      | nil =>
        left
        exact ⟨t, by simpa using ht⟩
      | cons a s' =>
        right
        simp only [List.cons_append, List.cons.injEq] at ht
        exact ⟨s', t, ht.2⟩

theorem incHere_iff (cs : List Char) :
    incHere cs = true ↔
      ∃ d suf, d ≠ '\n' ∧ cs = 'i' :: 'n' :: 'c' :: d :: suf := by
  match cs with
  | [] => simp [incHere]
  | [a] => simp [incHere]
  | [a, b] => simp [incHere]
  | [a, b, c] => simp [incHere]
  | a :: b :: c :: d :: rest =>
    simp only [incHere, Bool.and_eq_true, beq_iff_eq, bne_iff_ne,
      List.cons.injEq]
    constructor
    · rintro ⟨⟨⟨ha, hb⟩, hc⟩, hd⟩
      exact ⟨d, rest, hd, ha, hb, hc, rfl, rfl⟩
    · rintro ⟨d', suf, hd, ha, hb, hc, hdd, hsuf⟩
      exact ⟨⟨⟨ha, hb⟩, hc⟩, hdd ▸ hd⟩

theorem hasIncAny_iff : ∀ cs : List Char,
    hasIncAny cs = true ↔
      ∃ d s t, d ≠ '\n' ∧ cs = s ++ 'i' :: 'n' :: 'c' :: d :: t := by
  intro cs
  induction cs with
  | nil =>
    simp only [hasIncAny]
    constructor
    · intro h
      cases h
    · rintro ⟨d, s, t, hd, h⟩
      exact absurd h.symm (by simp)
  | cons c rest ih =>
    simp only [hasIncAny, Bool.or_eq_true, incHere_iff, ih]
    constructor
    · rintro (⟨d, suf, hd, h⟩ | ⟨d, s, t, hd, h⟩)
      · exact ⟨d, [], suf, hd, by simpa using h⟩
      · exact ⟨d, c :: s, t, hd, by simp [h]⟩
    · rintro ⟨d, s, t, hd, h⟩
      cases s with
      | nil =>
        left
        exact ⟨d, t, hd, by simpa using h⟩
      | cons a s' =>
        right
        simp only [List.cons_append, List.cons.injEq] at h
        exact ⟨d, s', t, hd, h.2⟩

theorem foldl_string_append (l : List String) : ∀ s : String,
    l.foldl (fun text p => text ++ p) s = s ++ l.foldl (fun text p => text ++ p) "" := by
  induction l with
  | nil =>
    intro s
    simp [List.foldl]
  | cons a l ih =>
    intro s
    simp only [List.foldl]
    rw [ih (s ++ a), ih ("" ++ a), String.empty_append, String.append_assoc]

/-! ## Claim theorems -/

/-- C1: for every detected-table list and every keyword set, a table's data
grid appears in the output of `extract_key_tables_from_pdf` exactly when the
text extracted within that table's bounding box contains at least one
keyword under case-insensitive substring containment (forward direction per
table, backward direction via a witnessing table for each emitted grid);
and with the empty keyword set the result is always the empty list. -/
theorem extract_key_tables_keyword_iff (tables : List PdfTable)
    (keywords : List String) :
    (∀ t ∈ tables, contains_keywords t.clipText keywords = true →
        t.df ∈ (extract_key_tables_from_pdf (Except.ok tables) keywords).2.1)
  ∧ (∀ g ∈ (extract_key_tables_from_pdf (Except.ok tables) keywords).2.1,
        ∃ t ∈ tables, contains_keywords t.clipText keywords = true ∧ t.df = g)
  ∧ (extract_key_tables_from_pdf (Except.ok tables) []).2.1 = [] := by
  refine ⟨?_, ?_, ?_⟩
  · intro t ht hkw
    cases tables with
    | nil => cases ht
    | cons a rest =>
      simp only [extract_key_tables_from_pdf, List.mem_map, List.mem_filter]
      exact ⟨t, ⟨ht, hkw⟩, rfl⟩
  · intro g hg
    cases tables with
    | nil =>
      simp only [extract_key_tables_from_pdf, List.not_mem_nil] at hg
    | cons a rest =>
      simp only [extract_key_tables_from_pdf, List.mem_map, List.mem_filter] at hg
      obtain ⟨t, ⟨ht, hkw⟩, hdf⟩ := hg
      exact ⟨t, ht, hkw, hdf⟩
  · cases tables with
    | nil => rfl
    | cons a rest =>
      simp only [extract_key_tables_from_pdf]
      have hnone : ∀ t : PdfTable, contains_keywords t.clipText [] = false :=
        fun _ => rfl
      simp [hnone]

/-- C1 witness: a concrete table whose clipped text contains the keyword
(case-insensitively) has its grid in the output. -/
theorem extract_key_tables_keyword_iff_witness :
    ([["x"]] : Grid) ∈
      (extract_key_tables_from_pdf
        (Except.ok [⟨1, "Total current assets 1,234", [["x"]]⟩])
        ["total current assets"]).2.1 :=
  (extract_key_tables_keyword_iff
      [⟨1, "Total current assets 1,234", [["x"]]⟩] ["total current assets"]).1
    ⟨1, "Total current assets 1,234", [["x"]]⟩ (by decide) (by decide)

/-- C9: when table detection succeeds but finds zero tables, the per-table
loop never binds `doc`, so `doc.close()` raises and the generic handler
fires: the function returns the empty grid list and surfaces an error
message (third component `true`). -/
theorem extract_key_tables_zero_tables (keywords : List String) :
    extract_key_tables_from_pdf (Except.ok []) keywords =
      ([FsOp.createTemp, FsOp.writeTemp], [], true) := rfl

/-- C2: on a text the period grammar does not match, `extract_specific_dates`
does not return a sentinel: `pd.DataFrame([])` has no columns, so the
column access `df_period[0]` raises `KeyError`, which escapes to the
caller's outer handler.  The first conjunct exhibits that the grammar
indeed has no match on the input. -/
theorem extract_specific_dates_no_match_raises :
    findall (pyLower "hello world").toList = []
  ∧ extract_specific_dates "hello world" = Except.error "KeyError: 0" :=
  ⟨rfl, rfl⟩

/-- C7: `extract_text_from_pdf` returns the concatenation of all page texts
in page order (`String.join`), its output length is monotonically
non-decreasing when pages are appended, a zero-page document yields the
empty string, and a document all of whose pages are empty yields the empty
string. -/
theorem extract_text_concat (pages extra : List String) :
    extract_text_from_pdf pages = String.join pages
  ∧ (extract_text_from_pdf pages).length ≤
      (extract_text_from_pdf (pages ++ extra)).length
  ∧ extract_text_from_pdf [] = ""
  ∧ ((∀ p ∈ pages, p = "") → extract_text_from_pdf pages = "") := by
  refine ⟨rfl, ?_, rfl, ?_⟩
  · show (extract_text_from_pdf pages).length ≤
      (extract_text_from_pdf (pages ++ extra)).length
    have h : extract_text_from_pdf (pages ++ extra) =
        extract_text_from_pdf pages ++ extract_text_from_pdf extra := by
      show (pages ++ extra).foldl (fun text p => text ++ p) "" = _
      rw [List.foldl_append]
      exact foldl_string_append extra (extract_text_from_pdf pages)
    rw [h, String.length_append]
    exact Nat.le_add_right _ _
  · intro hall
    induction pages with
    | nil => rfl
    | cons p rest ih =>
      have hp : p = "" := hall p (List.mem_cons_self p rest)
      have hrest : ∀ q ∈ rest, q = "" := fun q hq => hall q (List.mem_cons_of_mem p hq)
      show (p :: rest).foldl (fun text q => text ++ q) "" = ""
      simp only [List.foldl, hp, String.append_empty]
      exact ih hrest

/-- C7 witness: a two-page document with only empty pages yields the empty
string. -/
theorem extract_text_concat_witness : extract_text_from_pdf ["", ""] = "" :=
  (extract_text_concat ["", ""] ["x"]).2.2.2 (by decide)

/-- C5: Scenario B — on an input text containing
"for the quarterly period ended: March 31, 2024" the Period Extractor
returns "For The Quarterly Period Ended: March 31, 2024"; and in general
the returned value is the title-cased (group-1) string of the first match
found by the period grammar. -/
theorem extract_specific_dates_scenarioB :
    extract_specific_dates
        "Form 10-Q for the quarterly period ended: March 31, 2024" =
      Except.ok "For The Quarterly Period Ended: March 31, 2024"
  ∧ ∀ (text : String) (m : RegexMatch) (rest : List RegexMatch),
      findall (pyLower text).toList = m :: rest →
      extract_specific_dates text = Except.ok (pyTitle m.g1) := by
  constructor
  · rfl
  · intro text m rest h
    have h' : findall (pyLower text).data = m :: rest := h
    simp [extract_specific_dates, h']

/-- C5 witness: the first-match/title-case rule applied at a concrete
input. -/
theorem extract_specific_dates_scenarioB_witness :
    extract_specific_dates "for the fiscal period ended: may 5, 2021" =
      Except.ok (pyTitle "for the fiscal period ended: may 5, 2021") :=
  extract_specific_dates_scenarioB.2
    "for the fiscal period ended: may 5, 2021"
    ⟨"for the fiscal period ended: may 5, 2021", "fiscal", "may 5, 2021",
     "", ""⟩ [] rfl

/-- C10: when the first match of the period grammar is the double-space
fiscal-year alternative (group 1 empty, group 4 non-empty), the returned
value is the title-casing of the empty group 1, i.e. the empty string, and
the caller's `if doc_period:` check then displays the not-found fallback. -/
theorem extract_specific_dates_fiscal_year_empty (text : String)
    (m : RegexMatch) (rest : List RegexMatch)
    (hfind : findall (pyLower text).toList = m :: rest)
    (hg1 : m.g1 = "") (hg4 : m.g4 ≠ "") :
    extract_specific_dates text = Except.ok ""
  ∧ mainPeriodLine "" = "No specific dates found in the document." := by
  constructor
  · have hfind' : findall (pyLower text).data = m :: rest := hfind
    have h : extract_specific_dates text = Except.ok (pyTitle m.g1) := by
      simp [extract_specific_dates, hfind']
    rw [h, hg1]
    rfl
  · rfl

/-- C10 witness: a concrete text whose only match is the double-space
fiscal-year variant yields the empty string. -/
theorem extract_specific_dates_fiscal_year_empty_witness :
    extract_specific_dates "for the  fiscal year ended: october 31, 2023" =
      Except.ok ""
  ∧ mainPeriodLine "" = "No specific dates found in the document." :=
  extract_specific_dates_fiscal_year_empty
    "for the  fiscal year ended: october 31, 2023"
    ⟨"", "", "", "for the  fiscal year ended: october 31, 2023",
     "october 31, 2023"⟩ [] rfl rfl (by decide)

/-- C4 (counterexample): with four retained grids, only the first three are
rendered; the fourth grid is absent and no entry carries the label
"Table 4", refuting that every retained table beyond the third is still
shown. -/
theorem render_tables_drops_fourth :
    renderTables [[["1"]], [["2"]], [["3"]], [["4"]]] =
      [("Consolidated Statements of Earnings", [["1"]]),
       ("Consolidated Balance Sheets", [["2"]]),
       ("Consolidated Statements of Cash Flows", [["3"]])]
  ∧ ((renderTables [[["1"]], [["2"]], [["3"]], [["4"]]]).contains
      ("Table 4", [["4"]])) = false
  ∧ (((renderTables [[["1"]], [["2"]], [["3"]], [["4"]]]).map Prod.snd).contains
      [["4"]]) = false := by
  refine ⟨rfl, by decide, by decide⟩

/-- C4 (amended): the rendered tables are exactly the first three retained
grids (`dataframes[:3]`), labeled in order by the fixed label list; any
retained table beyond the third is not shown at all. -/
theorem render_tables_amended (dataframes : List Grid) :
    (renderTables dataframes).map Prod.snd = dataframes.take 3
  ∧ (renderTables dataframes).map Prod.fst =
      table_labels.take dataframes.length := by
  obtain _ | ⟨a, _ | ⟨b, _ | ⟨c, rest⟩⟩⟩ := dataframes
  · exact ⟨rfl, rfl⟩
  · exact ⟨rfl, rfl⟩
  · exact ⟨rfl, rfl⟩
  · constructor
    · rfl
    · have h : table_labels.take (a :: b :: c :: rest).length = table_labels :=
        List.take_of_length_le (by simp [table_labels])
      rw [h]
      rfl

/-- C6 (counterexample): the entity "Zinc2 Metals" contains none of the five
markers as a literal substring (in particular not "inc."), yet the code's
filter keeps it — pandas `str.contains` reads the marker list as a regular
expression, so the dot of "inc." matches the "2" of "zinc2" — and it is
reported as the company name instead of "Unknown". -/
theorem company_filter_regex_dot_counterexample :
    first_company ["Zinc2 Metals"] = "Zinc2 Metals"
  ∧ specLiteralMarker (pyLower "Zinc2 Metals") = false := by
  exact ⟨by decide, by decide⟩

/-- C6 (amended): for every entity list, the filter keeps exactly those
entities whose lowercase form contains "company", "ltd", "enterprise" or
"corporation" as a literal substring, or contains "inc" followed by one
arbitrary non-newline character (the regex-wildcard reading of "inc.");
the first kept entity (in original order) is reported, and "Unknown" is
reported when no entity is kept. -/
theorem company_filter_amended (names : List String) :
    (∀ n, n ∈ keptCompanies names ↔ n ∈ names ∧
      ((∃ s t, (pyLower n).toList = s ++ "company".toList ++ t) ∨
       (∃ d s t, d ≠ '\n' ∧
          (pyLower n).toList = s ++ 'i' :: 'n' :: 'c' :: d :: t) ∨
       (∃ s t, (pyLower n).toList = s ++ "ltd".toList ++ t) ∨
       (∃ s t, (pyLower n).toList = s ++ "enterprise".toList ++ t) ∨
       (∃ s t, (pyLower n).toList = s ++ "corporation".toList ++ t)))
  ∧ (keptCompanies names = [] → first_company names = "Unknown")
  ∧ (∀ c l, keptCompanies names = c :: l → first_company names = c) := by
  refine ⟨?_, ?_, ?_⟩
  · intro n
    simp only [keptCompanies, List.mem_filter, companyMarkerMatch,
      Bool.or_eq_true, or_assoc, listContainsSeg_iff, hasIncAny_iff]
  · intro h
    simp [first_company, h]
  · intro c l h
    simp [first_company, h]

/-- C6 witness: a concrete list whose first kept entity is reported. -/
theorem company_filter_amended_witness :
    first_company ["ACME Company"] = "ACME Company" :=
  (company_filter_amended ["ACME Company"]).2.2 "ACME Company" [] (by decide)

/-- C3 (counterexample): with a perfectly readable document whose text the
period grammar does not match, `extract_specific_dates` raises inside the
metadata branch and control jumps to the outer handler: the table section
and the QA section never run even though table detection succeeded and QA
would have succeeded — refuting branch isolation. -/
theorem main_metadata_failure_blocks_tables :
    (mainRun ⟨Except.ok "hello world", Except.ok ["Acme Company"],
        Except.ok [⟨1, "total current assets", [["a"]]⟩],
        Except.ok "answer"⟩).tables = none
  ∧ (mainRun ⟨Except.ok "hello world", Except.ok ["Acme Company"],
        Except.ok [⟨1, "total current assets", [["a"]]⟩],
        Except.ok "answer"⟩).qaRan = false
  ∧ (mainRun ⟨Except.ok "hello world", Except.ok ["Acme Company"],
        Except.ok [⟨1, "total current assets", [["a"]]⟩],
        Except.ok "answer"⟩).outerError = some "KeyError: 0" :=
  ⟨rfl, rfl, rfl⟩

/-- C3 (amended): once text and entity extraction succeed, only the QA
branch is isolated — if period extraction fails, the company line has
already been rendered but the table and QA sections never run; if period
extraction succeeds, the table section always renders and the QA section
completes exactly when the QA stack does not raise. -/
theorem main_isolation_amended (o : MainOracle) (text : String)
    (ents : List String) (htext : o.text = Except.ok text)
    (hents : o.entities = Except.ok ents) :
    ((∃ e, extract_specific_dates text = Except.error e) →
        (mainRun o).companyLine = some (mainCompanyLine ents)
      ∧ (mainRun o).tables = none
      ∧ (mainRun o).qaRan = false)
  ∧ (∀ p, extract_specific_dates text = Except.ok p →
        (mainRun o).companyLine = some (mainCompanyLine ents)
      ∧ (mainRun o).tables =
          some (renderTables
            (extract_key_tables_from_pdf o.tablesDetection main_keywords).2.1)
      ∧ ((mainRun o).qaRan = true ↔ ∃ a, o.qa = Except.ok a)) := by
  obtain ⟨otext, oents, odet, oqa⟩ := o
  simp only at htext hents
  subst htext
  subst hents
  constructor
  · rintro ⟨e, he⟩
    simp [mainRun, he]
  · intro p hp
    cases oqa with
    | error e => simp [mainRun, hp]
    | ok a => simp [mainRun, hp]

/-- C3 witness: the amended theorem applied at a concrete oracle whose
period extraction fails. -/
theorem main_isolation_amended_witness :
    (mainRun ⟨Except.ok "hello world", Except.ok ["Acme Company"],
        Except.ok [], Except.ok "a"⟩).companyLine =
      some (mainCompanyLine ["Acme Company"])
  ∧ (mainRun ⟨Except.ok "hello world", Except.ok ["Acme Company"],
        Except.ok [], Except.ok "a"⟩).tables = none
  ∧ (mainRun ⟨Except.ok "hello world", Except.ok ["Acme Company"],
        Except.ok [], Except.ok "a"⟩).qaRan = false :=
  (main_isolation_amended
      ⟨Except.ok "hello world", Except.ok ["Acme Company"],
       Except.ok [], Except.ok "a"⟩
      "hello world" ["Acme Company"] rfl rfl).1 ⟨"KeyError: 0", rfl⟩

/-- C8 (counterexample): at a concrete input, both the Table Locator and the
Retrieval Index Builder create and write the temporary file but their
file-system trace contains no deletion — the file survives the return,
refuting guaranteed cleanup. -/
theorem temp_file_not_deleted_counterexample :
    (extract_key_tables_from_pdf (Except.ok []) []).1 =
      [FsOp.createTemp, FsOp.writeTemp]
  ∧ (load_pdf_and_create_index (Except.ok [])).1 =
      [FsOp.createTemp, FsOp.writeTemp]
  ∧ ([FsOp.createTemp, FsOp.writeTemp].contains FsOp.deleteTemp) = false :=
  ⟨rfl, rfl, rfl⟩

/-- C8 (amended): on every exit path (detection success, zero tables,
detection failure; loader success or failure) the temporary file is created
with `delete=False` and never deleted — the trace is always exactly
creation followed by the write, with no `deleteTemp`. -/
theorem temp_file_never_deleted (detection : Except String (List PdfTable))
    (keywords : List String) (loaderChain : Except String (List String)) :
    (extract_key_tables_from_pdf detection keywords).1 =
      [FsOp.createTemp, FsOp.writeTemp]
  ∧ (load_pdf_and_create_index loaderChain).1 =
      [FsOp.createTemp, FsOp.writeTemp]
  ∧ ((extract_key_tables_from_pdf detection keywords).1.contains
      FsOp.deleteTemp) = false
  ∧ ((load_pdf_and_create_index loaderChain).1.contains
      FsOp.deleteTemp) = false := by
  refine ⟨?_, rfl, ?_, rfl⟩
  · cases detection with
    | error e => rfl
    | ok tables => cases tables with | nil => rfl | cons a r => rfl
  · cases detection with
    | error e => rfl
    | ok tables => cases tables with | nil => rfl | cons a r => rfl
